import Mathlib

/-!
# Verification of the SLH community-wallet service

A shallow embedding of the SLH repository (FastAPI wallet service + Telegram
bot for the SLH token on a BSC-compatible chain) and proofs about it.

Modelling conventions:
* Python strings that are manipulated character-by-character (addresses,
  hex payloads, decimal literals) are modelled as `List Char`; strings that
  are only stored and compared (identifiers, currency/chain tags) are
  modelled as `String`.
* Python `decimal.Decimal` values are modelled by their exact rational
  value (`ℚ`); a parsed decimal literal is a coefficient/scale pair
  (`Dec`), exactly the internal representation of `Decimal`.  The default
  28-significant-digit context of `decimal` is modelled only where it can
  fire: the round-trip theorems carry magnitude hypotheses under which the
  context is exact, and the balance-aggregation `quantize` is modelled as
  fallible (`quantize18Ctx`), returning `none` where the source raises
  `InvalidOperation`.
  `Decimal`'s scientific notation, `NaN`/`Infinity` literals and
  surrounding whitespace are outside the modelled literal grammar.
* Fallible operations return `Option`/`Except`; external effects (RPC
  transport, signing, broadcasting) are modelled by oracle inputs and by an
  explicit effect trace.
* Database tables are lists of rows; SQLAlchemy `db.get`/`filter.first`
  become first-match lookups, `db.add` + `commit` an append, and an in-place
  row mutation a first-match replacement.
-/

namespace SLH

/-! ## Characters, digits, hex -/

/-- Value of a hexadecimal digit character (also covers decimal digits). -/
def hexVal (c : Char) : ℕ :=
  if c.isDigit then c.toNat - 48
  else if 'a' ≤ c && c ≤ 'f' then c.toNat - 87
  else c.toNat - 55

/-- Is `c` one of `0-9a-fA-F`?  (the character class of `ADDR_RE` in
`src/bot/bot.py` and of Python `int(·, 16)` digits). -/
def isHexDigitChar (c : Char) : Bool :=
  c.isDigit || ('a' ≤ c && c ≤ 'f') || ('A' ≤ c && c ≤ 'F')

/-- Fold a digit list into a natural number in the given base. -/
def digitsToNat (base : ℕ) (l : List Char) : ℕ :=
  l.foldl (fun n c => n * base + hexVal c) 0

/-- `isValidAddress` of the spec, as implemented by `ADDR_RE =
^0x[a-fA-F0-9]{40}$` in `src/bot/bot.py` (and by the inline
`startswith("0x") and len == 42` checks in `src/app/routers/wallet.py`):
exactly `0x` followed by 40 hex characters.  `Web3.is_address` in
`src/api/main.py` is modelled by the same predicate; its extra EIP-55
mixed-case checksum rejection is not modelled (no claim under verification
depends on it). -/
def isValidAddress (s : List Char) : Bool :=
  (s.length == 42) && (s.take 2 == ['0', 'x']) && (s.drop 2).all isHexDigitChar

/-! ## Decimal literals (`decimal.Decimal`) -/

/-- A parsed decimal literal: exact value `coeff / 10 ^ scale`.  This is the
coefficient/exponent representation `decimal.Decimal` itself uses (e.g.
`Decimal("1.5")` is coefficient 15, scale 1). -/
structure Dec where
  coeff : ℤ
  scale : ℕ
deriving DecidableEq

/-- Exact rational value of a parsed decimal. -/
def Dec.val (a : Dec) : ℚ := (a.coeff : ℚ) / (10 : ℚ) ^ a.scale

/-- Parse an unsigned plain decimal literal `digits [. digits]` (at least
one digit overall), as accepted by `decimal.Decimal`.  Returns the
coefficient/scale pair. -/
def parseUnsigned (s : List Char) : Option Dec :=
  let ip := s.takeWhile (fun c => c ≠ '.')
  let rest := s.dropWhile (fun c => c ≠ '.')
  let fp := rest.drop 1
  if fp.any (fun c => c = '.') then none
  else if ¬ (ip.all Char.isDigit && fp.all Char.isDigit) then none
  else if ip = [] ∧ fp = [] then none
  else some ⟨(digitsToNat 10 (ip ++ fp) : ℤ), fp.length⟩

/-- Parse a plain decimal literal with optional sign, as `Decimal(str)`
does on plain (non-scientific, non-special) literals. -/
def parseDecStr (s : List Char) : Option Dec :=
  match s with
  | '+' :: rest => parseUnsigned rest
  | '-' :: rest => (parseUnsigned rest).map (fun a => ⟨-a.coeff, a.scale⟩)
  | _ => parseUnsigned s

/-- Python `int(·)` applied to an exact decimal value: truncation toward
zero. -/
def ratTrunc (q : ℚ) : ℤ := q.num.tdiv (q.den : ℤ)

/-- Banker's rounding (round half to even) of a rational to an integer:
the rounding mode `ROUND_HALF_EVEN` used by `Decimal.quantize` by
default. -/
def bround (q : ℚ) : ℤ :=
  let f := ⌊q⌋
  let r := q - (f : ℚ)
  if r < 1 / 2 then f
  else if 1 / 2 < r then f + 1
  else if f % 2 = 0 then f else f + 1

/-- `x.quantize(Decimal("0.000000000000000001"))`: round to 18 fractional
digits (half-even).  The 28-digit context precision limit under which the
real `quantize` raises `InvalidOperation` is not modelled; theorems using
this definition restrict magnitudes so that the context is exact. -/
def quantize18 (q : ℚ) : ℚ := (bround (q * 10 ^ 18) : ℚ) / 10 ^ 18

/-- `toMinimalUnits`: `int(Decimal(amount) * Decimal(10) ** decimals)`
(src/api/main.py line 85): exact decimal multiplication, truncated toward
zero. -/
def toMinimalUnits (amount : ℚ) (decimals : ℕ) : ℤ :=
  ratTrunc (amount * 10 ^ decimals)

/-- `toHumanUnits`: the value-decoding tail of `_decode_hex_to_decimal`
(src/app/wallet.py lines 46-47): `(Decimal(wei) / 10 ** decimals)
.quantize(Decimal("0.000000000000000001"))`. -/
def toHumanUnits (minimal : ℤ) (decimals : ℕ) : ℚ :=
  quantize18 ((minimal : ℚ) / 10 ^ decimals)

/-! ## Hex literal parsing (Python `int(s, 16)`) -/

/-- Nonempty all-hex digit run, folded to its value. -/
def parseHexDigits (s : List Char) : Option ℕ :=
  if s ≠ [] ∧ s.all isHexDigitChar then some (digitsToNat 16 s) else none

/-- Remove a leading `0x`/`0X` base marker, as `int(·, 16)` does. -/
def stripHexMarker (s : List Char) : List Char :=
  if s.take 2 = ['0', 'x'] ∨ s.take 2 = ['0', 'X'] then s.drop 2 else s

/-- Python `int(s, 16)`: optional sign, optional `0x`/`0X` marker, then a
nonempty run of hex digits; `none` models the `ValueError` raised on
anything else.  (Underscore digit separators and surrounding whitespace,
which CPython also accepts, are outside the modelled grammar.) -/
def pyIntHex (s : List Char) : Option ℤ :=
  match s with
  | '+' :: rest => (parseHexDigits (stripHexMarker rest)).map (fun n => (n : ℤ))
  | '-' :: rest => (parseHexDigits (stripHexMarker rest)).map (fun n => -(n : ℤ))
  | _ => (parseHexDigits (stripHexMarker s)).map (fun n => (n : ℤ))

/-! ## Chain Gateway reads (src/app/wallet.py, src/app/routers/wallet.py)

The JSON-RPC transport (`_rpc_call`) catches every exception and returns
`None`; it is modelled by an oracle input `Option (List Char)`: `none` for
transport failure, HTTP error, undecodable JSON, or a JSON-RPC error
object, `some s` for a returned `result` string (per `_rpc_call`'s
`Optional[str]` annotation). -/

/-- `_decode_hex_to_decimal(value_hex, decimals)` (src/app/wallet.py lines
37-47).  Total: every failure branch of the source returns `Decimal("0")`
before any exception can escape. -/
def decode_hex_to_decimal (value_hex : Option (List Char)) (decimals : ℕ) : ℚ :=
  match value_hex with
  | none => 0
  | some s =>
    if s = [] then 0
    else
      let s1 := if s.take 2 = ['0', 'x'] then s.drop 2 else s
      let s2 := if s1 = [] then ['0'] else s1
      match pyIntHex s2 with
      | none => 0
      | some w => quantize18 ((w : ℚ) / 10 ^ decimals)

/-- The hex-integer parse that `_decode_hex_to_decimal` effectively
performs on a non-empty result string: strip one `0x`, substitute `"0"`
for an emptied string, then `int(·, 16)`. -/
def decodeParse (s : List Char) : Option ℤ :=
  let s1 := if s.take 2 = ['0', 'x'] then s.drop 2 else s
  pyIntHex (if s1 = [] then ['0'] else s1)

/-- `_fetch_bnb_balance(address)` (src/app/routers/wallet.py lines 79-101)
as a function of the RPC outcome: address sanity check, then
`int(result, 16)` wei decoded at 18 decimals; every failure path returns
`Decimal(0)`.  (The 28-significant-digit division context is not
modelled.) -/
def fetch_bnb_balance_r (address : List Char) (rpcResult : Option (List Char)) : ℚ :=
  if address = [] ∨ ¬ address.take 2 = ['0', 'x'] ∨ ¬ address.length = 42 then 0
  else
    match rpcResult with
    | none => 0
    | some r =>
      if r = [] then 0
      else
        match pyIntHex r with
        | none => 0
        | some w => (w : ℚ) / 10 ^ 18

/-! ## ERC-20 `balanceOf` call encoding -/

/-- Hex of the 4-byte `balanceOf(address)` selector. -/
def balanceOfSelector : List Char := ['7', '0', 'a', '0', '8', '2', '3', '1']

/-- Python `str.rjust(w, c)`: left-pad to width `w` (no-op when already at
least that long). -/
def rjust (s : List Char) (w : ℕ) (c : Char) : List Char :=
  List.replicate (w - s.length) c ++ s

/-- `_encode_erc20_balance_of(address)` (src/app/routers/wallet.py lines
104-120): requires a `0x` prefix and a 40-character remainder (else
`ValueError`, modelled as `none`), lowercases the address and returns
`"0x" + selector + addr.rjust(64, "0")`. -/
def encode_erc20_balance_of (address : List Char) : Option (List Char) :=
  if address.take 2 = ['0', 'x'] then
    let clean := (address.drop 2).map Char.toLower
    if clean.length = 40 then
      some (['0', 'x'] ++ balanceOfSelector ++ rjust clean 64 '0')
    else none
  else none

/-! ## Wallet Ledger data model (src/app/models.py) -/

/-- A `wallets` row (src/app/models.py lines 6-29).  Timestamps are
abstract instants (`ℕ`), supplied by the caller as `now`. -/
structure Wallet where
  telegram_id : String
  username : Option String
  first_name : Option String
  last_name : Option String
  bnb_address : String
  ton_address : Option String
  slh_address : Option String
  created_at : ℕ
  updated_at : ℕ
deriving DecidableEq

/-- A `transactions` row (src/app/models.py lines 32-57). -/
structure Transaction where
  from_telegram_id : Option String
  to_telegram_id : Option String
  amount : ℚ
  currency : String
  chain : String
  onchain : Bool
  tx_hash : Option String
  note : Option String
deriving DecidableEq

/-- Python `new or old` on optional strings: keep `old` when `new` is
`None` or empty (falsy). -/
def pyOr (new old : Option String) : Option String :=
  match new with
  | some s => if s = "" then old else some s
  | none => old

/-- `db.get(Wallet, id)` / `query.filter(telegram_id == id).first()`:
first row with the given primary key. -/
def dbGet (db : List Wallet) (id : String) : Option Wallet :=
  db.find? (fun w => w.telegram_id == id)

/-- In-place mutation of the first row with the given key (SQLAlchemy
attribute assignment on a fetched row, then `commit`). -/
def setFirst (db : List Wallet) (id : String) (f : Wallet → Wallet) : List Wallet :=
  match db with
  | [] => []
  | w :: rest => if w.telegram_id == id then f w :: rest else w :: setFirst rest id f

/-- `upsert_wallet` (src/app/routers/wallet.py lines 216-265): create a
row with `slh_address = bnb_address`, or overwrite the address fields of
the existing row (`username`/`first_name`/`ton_address` only when the new
value is truthy).  Returns the new table and the affected row.  Note: the
source performs no validation of `bnb_address`. -/
def upsert_wallet (db : List Wallet) (now : ℕ) (telegram_id : String)
    (username first_name : Option String) (bnb_address : String)
    (ton_address : Option String) : List Wallet × Wallet :=
  match dbGet db telegram_id with
  | none =>
    let w : Wallet :=
      ⟨telegram_id, username, first_name, none, bnb_address, ton_address,
        some bnb_address, now, now⟩
    (db ++ [w], w)
  | some w =>
    let w' : Wallet :=
      { w with
        username := pyOr username w.username
        first_name := pyOr first_name w.first_name
        bnb_address := bnb_address
        slh_address := some bnb_address
        ton_address := pyOr ton_address w.ton_address
        updated_at := now }
    (setFirst db telegram_id (fun _ => w'), w')

/-- The primary-key column of a wallets table. -/
def wkeys (db : List Wallet) : List String := db.map Wallet.telegram_id

/-- Number of rows holding the given key. -/
def countId (db : List Wallet) (id : String) : ℕ :=
  (db.filter (fun w => w.telegram_id == id)).length

/-- `x.quantize(Decimal("0.000000000000000001"))` under the default
`decimal` context: the rounded result's coefficient must fit in the
context's 28 significant digits — `x` rounded to 18 fractional digits must
have `|coefficient| < 10²⁸`, i.e. fewer than 10 integer digits — else
`quantize` raises `InvalidOperation`, modelled as `none`.  (The context
also rounds the preceding subtraction to 28 significant digits; on
18-fractional-digit grid inputs that rounding is the identity exactly when
this final `quantize` succeeds, so it needs no separate model.) -/
def quantize18Ctx (q : ℚ) : Option ℚ :=
  if (bround (q * 10 ^ 18)).natAbs < 10 ^ 28 then
    some ((bround (q * 10 ^ 18) : ℚ) / 10 ^ 18)
  else none

/-- `_get_internal_slh_balance(db, telegram_id)` (src/app/wallet.py lines
79-101): `SUM(amount)` over incoming minus `SUM(amount)` over outgoing
rows, both filtered to `currency = "SLH"` and `chain = "INTERNAL"`,
quantized to 18 fractional digits under the default 28-digit context.
`none` models the uncaught `InvalidOperation` the source raises to its
caller when the difference has 10 or more integer digits. -/
def internal_slh_balance (txs : List Transaction) (telegramId : String) :
    Option ℚ :=
  let incoming :=
    ((txs.filter (fun t =>
      t.to_telegram_id == some telegramId && t.currency == "SLH" &&
        t.chain == "INTERNAL")).map Transaction.amount).sum
  let outgoing :=
    ((txs.filter (fun t =>
      t.from_telegram_id == some telegramId && t.currency == "SLH" &&
        t.chain == "INTERNAL")).map Transaction.amount).sum
  quantize18Ctx (incoming - outgoing)

/-- The spec's `internalBalance` credit side, stated from the spec's own
words for comparison: sum of entry amounts with `toUserId = userId`,
restricted to the internal ledger tag (and the SLH currency tag). -/
def specIncomingSum (txs : List Transaction) (userId : String) : ℚ :=
  ((txs.filter (fun t =>
    t.to_telegram_id == some userId && t.currency == "SLH" &&
      t.chain == "INTERNAL")).map Transaction.amount).sum

/-- The spec's `internalBalance` debit side: sum of entry amounts with
`fromUserId = userId`, restricted to the internal ledger tag. -/
def specOutgoingSum (txs : List Transaction) (userId : String) : ℚ :=
  ((txs.filter (fun t =>
    t.from_telegram_id == some userId && t.currency == "SLH" &&
      t.chain == "INTERNAL")).map Transaction.amount).sum

/-! ## Chat Facade: `/send_slh`, `/claim`, `/airdrop`
(src/app/telegram.py `telegram_webhook`)

Database state is the wallets table plus the append-only transactions
table.  Outbound `send_message` calls are modelled as a structured reply
trace (`Reply`); the Hebrew text bodies are elided, the data each message
carries (amounts, hashes, notes, recipients) is kept. -/

/-- Both tables of the service. -/
structure DBState where
  wallets : List Wallet
  transactions : List Transaction
deriving DecidableEq

/-- One outbound `send_message` intent of the webhook handler. -/
inductive Reply where
  | usageSendSlh
  | invalidAmount
  | noSenderWallet
  | recipientNotFound
  | confirmSender (amount : ℚ) (toLabel : String) (txHash : Option String)
      (note : Option String)
  | notifyRecipient (recipient : String) (amount : ℚ) (note : Option String)
      (txHash : Option String)
  | claimConfirm (amount : ℚ)
  | notAdmin
  | usageAirdrop
  | invalidAirdropAmount
  | airdropNotify (recipient : String) (amount : ℚ)
  | airdropSummary (success failed : ℕ)
deriving DecidableEq

/-- `target.startswith("@")`: does the string begin with the given
character?  (stated over the character list so that it evaluates by
kernel reduction). -/
def startsWithChar (s : String) (c : Char) : Bool :=
  s.toList.take 1 = [c]

/-- Recipient lookup of `/send_slh` and `/airdrop` (src/app/telegram.py
lines 377-388): `@name` looks up the first wallet with that username,
anything else is treated as a telegram id primary-key lookup. -/
def findTarget (wallets : List Wallet) (target : String) : Option Wallet :=
  if startsWithChar target '@' then
    wallets.find? (fun w => w.username == some (target.drop 1))
  else dbGet wallets target

/-- The `to_label` string the sender confirmation uses. -/
def targetLabel (target : String) : String :=
  if startsWithChar target '@' then target else "user_id=" ++ target

/-- `/send_slh` (src/app/telegram.py lines 340-471).  `onchainEnabled` is
the `SLH_ONCHAIN_ENABLED` feature flag; `onchainResult` is the outcome of
`send_slh_bsc_onchain` when invoked (`.error ()` covers both
`OnchainConfigError` and any other exception — the source catches both and
keeps the internal record).  Returns the new state and the reply trace. -/
def handleSendSlh (onchainEnabled : Bool) (onchainResult : Except Unit String)
    (db : DBState) (senderId : String) (args : List String) :
    DBState × List Reply :=
  match args with
  | amount_raw :: target_raw :: rest =>
    let note : Option String :=
      if rest.isEmpty then none else some (String.intercalate (" ") rest)
    match parseDecStr amount_raw.toList with
    | none => (db, [.invalidAmount])
    | some a =>
      if a.val ≤ 0 then (db, [.invalidAmount])
      else
        match dbGet db.wallets senderId with
        | none => (db, [.noSenderWallet])
        | some _ =>
          match findTarget db.wallets target_raw with
          | none => (db, [.recipientNotFound])
          | some toW =>
            let base : Transaction :=
              ⟨some senderId, some toW.telegram_id, a.val, "SLH", "INTERNAL",
                false, none, note⟩
            let attempted := onchainEnabled && !(toW.bnb_address == "")
            let upd :=
              if attempted then
                match onchainResult with
                | .ok h =>
                  ({ base with onchain := true, chain := "BSC", tx_hash := some h },
                    some h)
                | .error _ => (base, none)
              else (base, none)
            (⟨db.wallets, db.transactions ++ [upd.1]⟩,
              [.confirmSender a.val (targetLabel target_raw) upd.2 note,
                .notifyRecipient toW.telegram_id a.val note upd.2])
  | _ => (db, [.usageSendSlh])

/-- The reward `/claim` credits: `Decimal(CLAIM_REWARD_SLH)` with a
fallback of `Decimal("10")` when parsing fails (src/app/telegram.py lines
517-521).  Note: a parsed non-positive value is used as-is. -/
def claimReward (rewardStr : String) : ℚ :=
  match parseDecStr rewardStr.toList with
  | some a => a.val
  | none => 10

/-- `/claim` (src/app/telegram.py lines 516-541): unconditionally appends
a system-originated internal credit of the configured reward. -/
def handleClaim (rewardStr : String) (db : DBState) (telegramId : String) :
    DBState × List Reply :=
  let reward := claimReward rewardStr
  let tx : Transaction :=
    ⟨none, some telegramId, reward, "SLH", "INTERNAL", false, none, some "claim"⟩
  (⟨db.wallets, db.transactions ++ [tx]⟩, [.claimConfirm reward])

/-- The recipient loop of `/airdrop` (src/app/telegram.py lines 580-617):
per target, resolve the wallet; on a miss count a failure, on a hit append
an internal row and a notification.  Returns the rows, the success and
failure counts, and the notification trace, in loop order. -/
def airdropLoop (wallets : List Wallet) (senderId : String) (amount : ℚ) :
    List String → List Transaction × ℕ × ℕ × List Reply
  | [] => ([], 0, 0, [])
  | t :: rest =>
    let r := airdropLoop wallets senderId amount rest
    match findTarget wallets t with
    | none => (r.1, r.2.1, r.2.2.1 + 1, r.2.2.2)
    | some toW =>
      (⟨some senderId, some toW.telegram_id, amount, "SLH", "INTERNAL", false,
          none, some "airdrop"⟩ :: r.1,
        r.2.1 + 1, r.2.2.1, .airdropNotify toW.telegram_id amount :: r.2.2.2)

/-- `/airdrop` (src/app/telegram.py lines 544-624): admin-gated; parses
the amount (rejecting non-positive), then runs the recipient loop and
commits all appended rows at once. -/
def handleAirdrop (isAdmin : Bool) (db : DBState) (senderId : String)
    (args : List String) : DBState × List Reply :=
  if !isAdmin then (db, [.notAdmin])
  else
    match args with
    | amount_raw :: t1 :: ts =>
      match parseDecStr amount_raw.toList with
      | none => (db, [.invalidAirdropAmount])
      | some a =>
        if a.val ≤ 0 then (db, [.invalidAirdropAmount])
        else
          let r := airdropLoop db.wallets senderId a.val (t1 :: ts)
          (⟨db.wallets, db.transactions ++ r.1⟩,
            r.2.2.2 ++ [.airdropSummary r.2.1 r.2.2.1])
    | _ => (db, [.usageAirdrop])

/-! ## HTTP Facade: `POST /transfer/slh` (src/api/main.py lines 69-115) -/

/-- The error responses of `transfer_slh`; `insufficientOperatorBalance`
is the HTTP 400 `"insufficient token balance in operator"` raised by the
pre-flight operator-balance check, `broadcastFailed` the unhandled
exception (HTTP 500) surfaced when the node rejects or drops the raw
transaction. -/
inductive ApiError where
  | forbidden
  | serverNotConfigured
  | invalidToAddr
  | invalidTokenAddress
  | insufficientOperatorBalance
  | broadcastFailed
deriving DecidableEq

/-- A write-side chain interaction of the endpoint: locally signing the
transfer transaction, or broadcasting the signed raw transaction to the
RPC node.  (Read calls — `decimals()`, `balanceOf`, gas price, nonce — are
supplied by the `ChainOracle` and not traced.) -/
inductive ChainEffect where
  | signTx (nonce : ℕ) (toAddr : List Char) (amountWei : ℤ) (gasPrice : ℤ)
      (gasLimit : ℕ) (chainId : ℕ)
  | broadcastTx (nonce : ℕ) (toAddr : List Char) (amountWei : ℤ)
deriving DecidableEq

/-- Environment configuration of src/api/main.py (empty string = unset,
matching the source's truthiness checks).  `gas_price_gwei` is the parsed
`GAS_PRICE_GWEI` decimal, `none` when the variable is empty. -/
structure ApiCfg where
  internal_api_key : String
  operator_pk : String
  token_address : List Char
  gas_price_gwei : Option Dec
  gas_limit : ℕ
  chain_id : ℕ
deriving DecidableEq

/-- Oracle for the chain reads of the endpoint, plus the node's verdict on
the eventual broadcast (`none` = rejected). -/
structure ChainOracle where
  decimals : ℕ
  operator_balance : ℕ
  gas_price : ℕ
  nonce : ℕ
  broadcast : Option String
deriving DecidableEq

/-- `transfer_slh` (src/api/main.py lines 69-115), with its chain
interactions made explicit: shared-secret guard, configuration and
destination-address guards, minimal-unit conversion, the pre-flight
operator `balanceOf` check, then build/sign/broadcast.  The returned list
is the trace of sign/broadcast effects, in order.  `amount_slh` is the
request amount (pydantic enforces `amount_slh > 0` before the handler
runs). -/
def transfer_slh (cfg : ApiCfg) (chain : ChainOracle)
    (x_internal_key : Option String) (to_addr : List Char) (amount_slh : ℚ) :
    Except ApiError String × List ChainEffect :=
  if cfg.internal_api_key ≠ "" ∧ x_internal_key ≠ some cfg.internal_api_key then
    (.error .forbidden, [])
  else if cfg.operator_pk = "" then (.error .serverNotConfigured, [])
  else if isValidAddress to_addr = false then (.error .invalidToAddr, [])
  else if isValidAddress cfg.token_address = false then
    (.error .invalidTokenAddress, [])
  else
    let amount_wei := toMinimalUnits amount_slh chain.decimals
    if (chain.operator_balance : ℤ) < amount_wei then
      (.error .insufficientOperatorBalance, [])
    else
      let gp : ℤ :=
        match cfg.gas_price_gwei with
        | some g => ratTrunc (g.val * 10 ^ 9)
        | none => (chain.gas_price : ℤ)
      let signE :=
        ChainEffect.signTx chain.nonce to_addr amount_wei gp cfg.gas_limit
          cfg.chain_id
      match chain.broadcast with
      | some h => (.ok h, [signE, .broadcastTx chain.nonce to_addr amount_wei])
      | none => (.error .broadcastFailed, [signE])

/-! ## Helper lemmas -/

theorem bround_intCast (k : ℤ) : bround (k : ℚ) = k := by
  simp only [bround, Int.floor_intCast, sub_self]
  norm_num

theorem ratTrunc_intCast (k : ℤ) : ratTrunc (k : ℚ) = k := by
  simp [ratTrunc]

theorem quantize18_scale_le (c : ℤ) (f : ℕ) (h : f ≤ 18) :
    quantize18 ((c : ℚ) / 10 ^ f) = (c : ℚ) / 10 ^ f := by
  have h10 : ((10 : ℚ) ^ f) ≠ 0 := by positivity
  have h18 : ((10 : ℚ) ^ 18) ≠ 0 := by positivity
  have hpow : ((10 : ℚ) ^ 18) = 10 ^ f * 10 ^ (18 - f) := by
    rw [← pow_add]
    congr 1
    omega
  have key : ((c : ℚ) / 10 ^ f) * 10 ^ 18 = ((c * 10 ^ (18 - f) : ℤ) : ℚ) := by
    push_cast
    rw [hpow, ← mul_assoc, div_mul_cancel₀ _ h10]
  rw [quantize18, key, bround_intCast, ← key, mul_div_cancel_right₀ _ h18]

theorem quantize18Ctx_of_small (k : ℤ) (h : k.natAbs < 10 ^ 28) :
    quantize18Ctx ((k : ℚ) / 10 ^ 18) = some ((k : ℚ) / 10 ^ 18) := by
  have hmul : ((k : ℚ) / 10 ^ 18) * 10 ^ 18 = (k : ℚ) :=
    div_mul_cancel₀ _ (by positivity)
  simp only [quantize18Ctx, hmul, bround_intCast]
  rw [if_pos h]

theorem natAbs_lt_of_abs_div_lt (k : ℤ)
    (h : |(k : ℚ) / 10 ^ 18| < 10 ^ 10) : k.natAbs < 10 ^ 28 := by
  have h18 : (0 : ℚ) < 10 ^ 18 := by positivity
  have habs : |(k : ℚ)| < 10 ^ 28 := by
    rw [abs_div, abs_of_pos h18, div_lt_iff₀ h18] at h
    calc |(k : ℚ)| < 10 ^ 10 * 10 ^ 18 := h
    _ = 10 ^ 28 := by norm_num
  have hz : ((k.natAbs : ℤ) : ℚ) < ((10 ^ 28 : ℤ) : ℚ) := by
    rw [← Int.abs_eq_natAbs, Int.cast_abs]
    push_cast
    exact habs
  have : (k.natAbs : ℤ) < 10 ^ 28 := by exact_mod_cast hz
  exact_mod_cast this

theorem sum_div_pow18 (l : List ℚ)
    (h : ∀ x ∈ l, ∃ k : ℤ, x = (k : ℚ) / 10 ^ 18) :
    ∃ K : ℤ, l.sum = (K : ℚ) / 10 ^ 18 := by
  induction l with
  | nil => exact ⟨0, by simp⟩
  | cons a l ih =>
    obtain ⟨k, hk⟩ := h a (by simp)
    obtain ⟨K, hK⟩ := ih (fun x hx => h x (by simp [hx]))
    refine ⟨k + K, ?_⟩
    rw [List.sum_cons, hk, hK, div_add_div_same, Int.cast_add]

theorem dbGet_setFirst (id : String) (w' : Wallet) (hid : w'.telegram_id = id) :
    ∀ db : List Wallet, (dbGet db id).isSome →
      dbGet (setFirst db id (fun _ => w')) id = some w' := by
  intro db
  induction db with
  | nil => intro h; simp [dbGet] at h
  | cons x rest ih =>
    intro h
    by_cases hx : x.telegram_id = id
    · simp [setFirst, dbGet, List.find?_cons, hx, hid]
    · have hxb : (x.telegram_id == id) = false := by simp [hx]
      have hrest : (dbGet rest id).isSome := by
        simpa [dbGet, List.find?_cons, hxb] using h
      simpa [setFirst, dbGet, List.find?_cons, hxb] using ih hrest

theorem wkeys_setFirst (id : String) (w' : Wallet) (hid : w'.telegram_id = id) :
    ∀ db : List Wallet, wkeys (setFirst db id (fun _ => w')) = wkeys db := by
  intro db
  induction db with
  | nil => rfl
  | cons x rest ih =>
    by_cases hx : x.telegram_id = id
    · simp [setFirst, wkeys, hx, hid]
    · have hxb : (x.telegram_id == id) = false := by simp [hx]
      simpa [setFirst, wkeys, hxb] using ih

theorem countId_setFirst (id : String) (w' : Wallet) (hid : w'.telegram_id = id) :
    ∀ db : List Wallet, countId (setFirst db id (fun _ => w')) id = countId db id := by
  intro db
  induction db with
  | nil => rfl
  | cons x rest ih =>
    by_cases hx : x.telegram_id = id
    · simp [setFirst, countId, hx, hid, List.filter_cons]
    · have hxb : (x.telegram_id == id) = false := by simp [hx]
      simpa [setFirst, countId, List.filter_cons, hxb] using ih

theorem countId_cons_match (x : Wallet) (rest : List Wallet) (id : String)
    (hx : x.telegram_id = id) : countId (x :: rest) id = countId rest id + 1 := by
  simp [countId, List.filter_cons, hx]

theorem countId_cons_nomatch (x : Wallet) (rest : List Wallet) (id : String)
    (hx : ¬ x.telegram_id = id) : countId (x :: rest) id = countId rest id := by
  simp [countId, List.filter_cons, hx]

theorem countId_eq_zero_of_not_mem (id : String) :
    ∀ db : List Wallet, id ∉ wkeys db → countId db id = 0 := by
  intro db h
  have hall : ∀ w ∈ db, ¬ (w.telegram_id == id) = true := by
    intro w hw hwid
    exact h (by
      simp only [wkeys, List.mem_map]
      exact ⟨w, hw, by simpa using hwid⟩)
  simp only [countId, List.length_eq_zero]
  exact List.filter_eq_nil_iff.mpr hall

theorem countId_le_one_of_nodup (id : String) :
    ∀ db : List Wallet, (wkeys db).Nodup → countId db id ≤ 1 := by
  intro db
  induction db with
  | nil => intro _; simp [countId]
  | cons x rest ih =>
    intro h
    simp only [wkeys, List.map_cons] at h
    have h1 : x.telegram_id ∉ List.map Wallet.telegram_id rest :=
      (List.nodup_cons.mp h).1
    have h2 : (wkeys rest).Nodup := (List.nodup_cons.mp h).2
    by_cases hx : x.telegram_id = id
    · have h1' : id ∉ wkeys rest := by
        rw [← hx]
        exact h1
      have h0 : countId rest id = 0 := countId_eq_zero_of_not_mem id rest h1'
      rw [countId_cons_match x rest id hx, h0]
    · rw [countId_cons_nomatch x rest id hx]
      exact ih h2

theorem countId_pos_of_dbGet (id : String) (db : List Wallet) (w : Wallet)
    (h : dbGet db id = some w) : 1 ≤ countId db id := by
  have h' : db.find? (fun w => w.telegram_id == id) = some w := h
  have hmem : w ∈ db := List.mem_of_find?_eq_some h'
  have hp0 := List.find?_some h'
  have hp : (w.telegram_id == id) = true := by simpa using hp0
  have hmf : w ∈ db.filter (fun w => w.telegram_id == id) :=
    List.mem_filter.mpr ⟨hmem, hp⟩
  have := List.length_pos.mpr (List.ne_nil_of_mem hmf)
  simpa [countId] using this

theorem dbGet_upsert (db : List Wallet) (now : ℕ) (id : String)
    (un fn : Option String) (bnb : String) (ton : Option String) :
    dbGet (upsert_wallet db now id un fn bnb ton).1 id =
      some (upsert_wallet db now id un fn bnb ton).2 := by
  unfold upsert_wallet
  cases h : dbGet db id with
  | none =>
    have hnone : db.find? (fun w => w.telegram_id == id) = none := h
    simp [dbGet, List.find?_append, hnone]
  | some w =>
    have hid : (({ w with
        username := pyOr un w.username
        first_name := pyOr fn w.first_name
        bnb_address := bnb
        slh_address := some bnb
        ton_address := pyOr ton w.ton_address
        updated_at := now } : Wallet)).telegram_id = id := by
      have := List.find?_some h
      simpa using this
    simpa using dbGet_setFirst id _ hid db (by simp [h])

theorem upsert_snd_addresses (db : List Wallet) (now : ℕ) (id : String)
    (un fn : Option String) (bnb : String) (ton : Option String) :
    (upsert_wallet db now id un fn bnb ton).2.bnb_address = bnb ∧
      (upsert_wallet db now id un fn bnb ton).2.slh_address = some bnb := by
  unfold upsert_wallet
  cases h : dbGet db id <;> simp

theorem wkeys_upsert_nodup (db : List Wallet) (now : ℕ) (id : String)
    (un fn : Option String) (bnb : String) (ton : Option String)
    (h : (wkeys db).Nodup) :
    (wkeys (upsert_wallet db now id un fn bnb ton).1).Nodup := by
  unfold upsert_wallet
  cases hg : dbGet db id with
  | none =>
    have hnot : id ∉ wkeys db := by
      intro hmem
      obtain ⟨w, hw, hwid⟩ := by simpa [wkeys, List.mem_map] using hmem
      have := List.find?_eq_none.mp hg w hw
      simp [hwid] at this
    have happ : (wkeys db ++ [id]).Nodup := by
      refine List.Nodup.append h (by simp) ?_
      intro a ha ha'
      simp only [List.mem_singleton] at ha'
      subst ha'
      exact hnot ha
    simpa [wkeys, List.map_append] using happ
  | some w =>
    have hid : (({ w with
        username := pyOr un w.username
        first_name := pyOr fn w.first_name
        bnb_address := bnb
        slh_address := some bnb
        ton_address := pyOr ton w.ton_address
        updated_at := now } : Wallet)).telegram_id = id := by
      have := List.find?_some hg
      simpa using this
    simpa [wkeys_setFirst id _ hid db] using h

theorem countId_upsert (db : List Wallet) (now : ℕ) (id : String)
    (un fn : Option String) (bnb : String) (ton : Option String)
    (h : (wkeys db).Nodup) :
    countId (upsert_wallet db now id un fn bnb ton).1 id = 1 := by
  unfold upsert_wallet
  cases hg : dbGet db id with
  | none =>
    have hnot : id ∉ wkeys db := by
      intro hmem
      obtain ⟨w, hw, hwid⟩ := by simpa [wkeys, List.mem_map] using hmem
      have := List.find?_eq_none.mp hg w hw
      simp [hwid] at this
    have h0 : countId db id = 0 := countId_eq_zero_of_not_mem id db hnot
    have hsplit : countId (db ++ [(⟨id, un, fn, none, bnb, ton, some bnb,
        now, now⟩ : Wallet)]) id = countId db id + 1 := by
      simp [countId, List.filter_append, List.filter_cons]
    rw [hsplit, h0]
  | some w =>
    have hid : (({ w with
        username := pyOr un w.username
        first_name := pyOr fn w.first_name
        bnb_address := bnb
        slh_address := some bnb
        ton_address := pyOr ton w.ton_address
        updated_at := now } : Wallet)).telegram_id = id := by
      have := List.find?_some hg
      simpa using this
    have hle := countId_le_one_of_nodup id db h
    have hge := countId_pos_of_dbGet id db w hg
    have heq := countId_setFirst id _ hid db
    simp only [heq]
    omega

theorem airdropLoop_amounts (wallets : List Wallet) (senderId : String)
    (amount : ℚ) :
    ∀ targets : List String, ∀ t ∈ (airdropLoop wallets senderId amount targets).1,
      t.amount = amount := by
  intro targets
  induction targets with
  | nil => intro t ht; simp [airdropLoop] at ht
  | cons x rest ih =>
    intro t ht
    simp only [airdropLoop] at ht
    cases hf : findTarget wallets x with
    | none =>
      simp only [hf] at ht
      exact ih t ht
    | some toW =>
      simp only [hf, List.mem_cons] at ht
      cases ht with
      | inl h => simp [h]
      | inr h => exact ih t h

/-! ## Claim C5 -/

/-- C5: for every valid input address, `_encode_erc20_balance_of` succeeds
and returns exactly the `0x` prefix, the 4-byte `balanceOf(address)`
selector (8 hex characters) and the 32-byte left-zero-padded address
(64 hex characters): 74 characters in total, of which `0x` plus the
10-character selector head is followed by the 64-character argument. -/
theorem C5_encode_balance_of_shape (addr : List Char)
    (h : isValidAddress addr = true) :
    encode_erc20_balance_of addr =
      some (['0', 'x'] ++ balanceOfSelector ++
        rjust ((addr.drop 2).map Char.toLower) 64 '0') ∧
    (['0', 'x'] ++ balanceOfSelector ++
        rjust ((addr.drop 2).map Char.toLower) 64 '0').length = 74 ∧
    (balanceOfSelector ++ rjust ((addr.drop 2).map Char.toLower) 64 '0').length
      = 8 + 64 := by
  simp only [isValidAddress, Bool.and_eq_true, beq_iff_eq,
    List.all_eq_true] at h
  obtain ⟨⟨hlen, htake⟩, _⟩ := h
  have hdl : (addr.drop 2).length = 40 := by
    rw [List.length_drop, hlen]
  have hdrop : ((addr.drop 2).map Char.toLower).length = 40 := by
    rw [List.length_map, hdl]
  have hrj : (rjust ((addr.drop 2).map Char.toLower) 64 '0').length = 64 := by
    rw [rjust, List.length_append, List.length_replicate, hdrop]
  refine ⟨?_, ?_, ?_⟩
  · simp only [encode_erc20_balance_of]
    rw [if_pos htake, if_pos hdrop]
  · rw [List.length_append, hrj]
    norm_num [List.length_append, balanceOfSelector]
  · rw [List.length_append, hrj]
    norm_num [balanceOfSelector]

/-- C5 witness: a concrete valid address. -/
theorem C5_witness :
    isValidAddress (("0xd0617b54fb4b6b66307846f217b4d685800e3da4").toList) = true ∧
    encode_erc20_balance_of (("0xd0617b54fb4b6b66307846f217b4d685800e3da4").toList) =
      some (['0', 'x'] ++ balanceOfSelector ++
        rjust (((("0xd0617b54fb4b6b66307846f217b4d685800e3da4").toList).drop 2).map
          Char.toLower) 64 '0') :=
  ⟨by decide, (C5_encode_balance_of_shape _ (by decide)).1⟩

/-! ## Claim C10 -/

/-- C10: after every `upsert_wallet` call — create or update — the stored
record for the user satisfies `slh_address = some bnb_address`: the SLH
address column always mirrors the (just-written) BNB address, and that
record is what a subsequent lookup by the user id returns. -/
theorem C10_slh_mirrors_bnb (db : List Wallet) (now : ℕ) (id : String)
    (un fn : Option String) (bnb : String) (ton : Option String) :
    (upsert_wallet db now id un fn bnb ton).2.slh_address =
      some ((upsert_wallet db now id un fn bnb ton).2.bnb_address) ∧
    dbGet (upsert_wallet db now id un fn bnb ton).1 id =
      some (upsert_wallet db now id un fn bnb ton).2 := by
  obtain ⟨h1, h2⟩ := upsert_snd_addresses db now id un fn bnb ton
  exact ⟨by rw [h1, h2], dbGet_upsert db now id un fn bnb ton⟩

/-! ## Claim C2 -/

/-- C2 counterexample: the claim says an address failing `isValidAddress`
makes the upsert fail with `InvalidAddress` and leaves the store
untouched.  In the source, `upsert_wallet` performs no validation at all:
upserting the non-address string `"zzz"` into an empty store succeeds and
creates a record carrying that string. -/
theorem C2_counterexample :
    isValidAddress (("zzz").toList) = false ∧
    (upsert_wallet [] 0 ("1") none none ("zzz") none).1 =
      [⟨"1", none, none, none, "zzz", none, some ("zzz"), 0, 0⟩] :=
  ⟨by decide, rfl⟩

/-- C2 amended: `upsert_wallet` does not validate the chain address.  Every
call succeeds — even when the supplied address fails `isValidAddress` — and
creates or overwrites the user's record with that address stored verbatim. -/
theorem C2_no_address_validation (db : List Wallet) (now : ℕ) (id : String)
    (un fn : Option String) (bnb : String) (ton : Option String)
    (_hinvalid : isValidAddress bnb.toList = false) :
    dbGet (upsert_wallet db now id un fn bnb ton).1 id =
      some (upsert_wallet db now id un fn bnb ton).2 ∧
    (upsert_wallet db now id un fn bnb ton).2.bnb_address = bnb := by
  exact ⟨dbGet_upsert db now id un fn bnb ton,
    (upsert_snd_addresses db now id un fn bnb ton).1⟩

/-- C2 witness: the invalid-address hypothesis is satisfiable at `"zzz"`. -/
theorem C2_witness :
    isValidAddress (("zzz").toList) = false ∧
    (upsert_wallet [] 0 ("2") none none ("zzz") none).2.bnb_address = "zzz" :=
  ⟨by decide, (C2_no_address_validation [] 0 ("2") none none ("zzz") none
    (by decide)).2⟩

/-! ## Claim C1 -/

/-- C1: whenever the pre-flight `balanceOf(operator)` check of
`POST /transfer/slh` sees fewer minimal units than the requested amount
(after the guards before it pass), the endpoint fails with the
insufficient-operator-balance error and the effect trace is empty: no
transaction is signed and nothing is broadcast to the RPC node. -/
theorem C1_insufficient_operator_balance_aborts (cfg : ApiCfg)
    (chain : ChainOracle) (xkey : Option String) (to_addr : List Char)
    (amount : ℚ)
    (hkey : cfg.internal_api_key = "" ∨ xkey = some cfg.internal_api_key)
    (hpk : cfg.operator_pk ≠ "")
    (hto : isValidAddress to_addr = true)
    (htok : isValidAddress cfg.token_address = true)
    (hbal : (chain.operator_balance : ℤ) < toMinimalUnits amount chain.decimals) :
    transfer_slh cfg chain xkey to_addr amount =
      (.error .insufficientOperatorBalance, []) := by
  have h1 : ¬ (cfg.internal_api_key ≠ "" ∧ xkey ≠ some cfg.internal_api_key) := by
    tauto
  have h3 : ¬ (isValidAddress to_addr = false) := by simp [hto]
  have h4 : ¬ (isValidAddress cfg.token_address = false) := by simp [htok]
  simp only [transfer_slh]
  rw [if_neg h1, if_neg hpk, if_neg h3, if_neg h4, if_pos hbal]

/-- C1 witness: operator holds 5 minimal units, request is 1 SLH at 18
decimals. -/
theorem C1_witness :
    ((5 : ℕ) : ℤ) < toMinimalUnits 1 18 ∧
    transfer_slh
      ⟨"", "pk", ("0xd0617b54fb4b6b66307846f217b4d685800e3da4").toList, none,
        120000, 56⟩
      ⟨18, 5, 1, 0, some ("h")⟩ none
      ("0xd0617b54fb4b6b66307846f217b4d685800e3da4").toList 1 =
      (.error .insufficientOperatorBalance, []) := by
  have hb : ((5 : ℕ) : ℤ) < toMinimalUnits 1 18 := by
    norm_num [toMinimalUnits, ratTrunc]
  exact ⟨hb, C1_insufficient_operator_balance_aborts _ _ _ _ _ (Or.inl rfl)
    (by decide) (by decide) (by decide) hb⟩

/-! ## Claim C6 -/

/-- C6: the balance reads degrade to zero instead of raising.  For
`_decode_hex_to_decimal` (behind `getNativeBalance`/`getTokenBalance` in
src/app/wallet.py) and for the routers-variant `_fetch_bnb_balance`: a
missing RPC result (`none`, covering transport failure, HTTP error,
undecodable JSON and JSON-RPC error objects) or a result string on which
the function's own hex-integer parse fails yields the value zero.  Both
functions are total by construction, mirroring that every exception path
in the source is caught and turned into `Decimal(0)`. -/
theorem C6_reads_zero_on_failure (d : ℕ) (addr : List Char)
    (r : Option (List Char)) :
    (r = none → decode_hex_to_decimal r d = 0 ∧ fetch_bnb_balance_r addr r = 0) ∧
    (∀ s, r = some s → (s = [] ∨ decodeParse s = none) →
      decode_hex_to_decimal r d = 0) ∧
    (∀ s, r = some s → pyIntHex s = none → fetch_bnb_balance_r addr r = 0) := by
  refine ⟨?_, ?_, ?_⟩
  · rintro rfl
    constructor
    · rfl
    · simp only [fetch_bnb_balance_r]
      split
      · rfl
      · rfl
  · rintro s rfl hs
    cases hs with
    | inl h =>
      subst h
      rfl
    | inr h =>
      simp only [decode_hex_to_decimal, decodeParse] at h ⊢
      by_cases he : s = []
      · simp [he]
      · rw [if_neg he, h]
  · rintro s rfl hs
    simp only [fetch_bnb_balance_r]
    split
    · rfl
    · by_cases he : s = []
      · simp [he]
      · rw [if_neg he, hs]

/-- C6 witness: a malformed (non-hex) result string and a missing result
both decode to zero on both read paths. -/
theorem C6_witness :
    decode_hex_to_decimal (some (("zz").toList)) 18 = 0 ∧
    fetch_bnb_balance_r (("0xd0617b54fb4b6b66307846f217b4d685800e3da4").toList)
      (some (("zz").toList)) = 0 ∧
    decode_hex_to_decimal none 18 = 0 :=
  ⟨(C6_reads_zero_on_failure 18 [] (some (("zz").toList))).2.1 _ rfl
      (Or.inr (by decide)),
    (C6_reads_zero_on_failure 18
      (("0xd0617b54fb4b6b66307846f217b4d685800e3da4").toList)
      (some (("zz").toList))).2.2 _ rfl (by decide),
    ((C6_reads_zero_on_failure 18 [] none).1 rfl).1⟩

/-! ## Claim C4 -/

/-- C4 counterexample: the round trip fails for `d = 19`.  The valid
decimal string `"0.0000000000000000001"` has 19 fractional digits (not
exceeding `d = 19`), and converting to minimal units gives exactly 1, but
the decode path quantizes its result to 18 fractional digits, so the value
comes back as 0 instead of 10⁻¹⁹. -/
theorem C4_counterexample :
    parseDecStr (("0.0000000000000000001").toList) = some ⟨1, 19⟩ ∧
    (⟨1, 19⟩ : Dec).scale ≤ 19 ∧
    toHumanUnits (toMinimalUnits (Dec.val ⟨1, 19⟩) 19) 19 ≠ Dec.val ⟨1, 19⟩ := by
  refine ⟨by decide, by decide, ?_⟩
  norm_num [toHumanUnits, toMinimalUnits, ratTrunc, quantize18, bround, Dec.val]

/-- C4 amended: the round trip `toHumanUnits (toMinimalUnits a d) d = a`
holds for every valid decimal string `a` with at most `d` fractional
digits whenever `d ≤ 18` (the decode path quantizes to 18 fractional
digits, so larger `d` loses precision — see the counterexample), the
computation being exact decimal arithmetic throughout.  The coefficient
bound keeps the value below 10¹⁰ tokens, under which `Decimal`'s default
28-digit context is exact. -/
theorem C4_roundtrip_le18 (s : List Char) (a : Dec) (d : ℕ)
    (hparse : parseDecStr s = some a) (hscale : a.scale ≤ d) (hd : d ≤ 18)
    (_hmag : a.coeff.natAbs < 10 ^ (10 + a.scale)) :
    toHumanUnits (toMinimalUnits a.val d) d = a.val := by
  obtain ⟨c, f⟩ := a
  simp only [Dec.val] at *
  have h10f : ((10 : ℚ) ^ f) ≠ 0 := by positivity
  have hpow : ((10 : ℚ) ^ d) = 10 ^ f * 10 ^ (d - f) := by
    rw [← pow_add]
    congr 1
    omega
  have hmul : ((c : ℚ) / 10 ^ f) * 10 ^ d = ((c * 10 ^ (d - f) : ℤ) : ℚ) := by
    push_cast
    rw [hpow, ← mul_assoc, div_mul_cancel₀ _ h10f]
  have hmin : toMinimalUnits ((c : ℚ) / 10 ^ f) d = c * 10 ^ (d - f) := by
    rw [toMinimalUnits, hmul, ratTrunc_intCast]
  have hdiv : ((c * 10 ^ (d - f) : ℤ) : ℚ) / 10 ^ d = (c : ℚ) / 10 ^ f := by
    push_cast
    rw [hpow]
    rw [mul_comm ((10 : ℚ) ^ f) _, ← div_div]
    rw [mul_div_assoc, div_self (by positivity : ((10 : ℚ) ^ (d - f)) ≠ 0), mul_one]
  rw [hmin, toHumanUnits, hdiv]
  exact quantize18_scale_le c f (le_trans hscale hd)

/-- C4 witness: the string `"1.5"` at 18 decimals round-trips exactly. -/
theorem C4_witness :
    parseDecStr (("1.5").toList) = some ⟨15, 1⟩ ∧
    toHumanUnits (toMinimalUnits (Dec.val ⟨15, 1⟩) 18) 18 = Dec.val ⟨15, 1⟩ :=
  ⟨by decide, C4_roundtrip_le18 (("1.5").toList) ⟨15, 1⟩ 18 (by decide)
    (by decide) (by decide) (by decide)⟩

/-! ## Claim C7 -/

/-- C7 counterexample: the claimed equality is unconditional, but the
source's final `quantize` runs under `decimal`'s default 28-digit context
and raises `InvalidOperation` once the difference reaches 10 integer
digits.  A single internal credit of 10¹¹ — reachable by any user via
`/send_slh 100000000000 @bob`, which checks only positivity — makes the
balance read raise (`none`) instead of returning the sum difference
10¹¹. -/
theorem C7_counterexample :
    internal_slh_balance
      [⟨none, some ("u"), 10 ^ 11, "SLH", "INTERNAL", false, none, none⟩]
      ("u") = none ∧
    specIncomingSum
        [⟨none, some ("u"), 10 ^ 11, "SLH", "INTERNAL", false, none, none⟩]
        ("u") -
      specOutgoingSum
        [⟨none, some ("u"), 10 ^ 11, "SLH", "INTERNAL", false, none, none⟩]
        ("u") = 10 ^ 11 ∧
    internal_slh_balance
      [⟨none, some ("u"), 10 ^ 11, "SLH", "INTERNAL", false, none, none⟩]
      ("u") ≠
      some (specIncomingSum
          [⟨none, some ("u"), 10 ^ 11, "SLH", "INTERNAL", false, none, none⟩]
          ("u") -
        specOutgoingSum
          [⟨none, some ("u"), 10 ^ 11, "SLH", "INTERNAL", false, none, none⟩]
          ("u")) := by
  have hval : ((100000000000 : ℚ)) = ((10 ^ 29 : ℤ) : ℚ) / 10 ^ 18 := by
    norm_num
  have hb : bround ((((10 ^ 29 : ℤ) : ℚ) / 10 ^ 18) * 10 ^ 18) = 10 ^ 29 := by
    rw [div_mul_cancel₀ _ (by positivity : ((10 : ℚ) ^ 18) ≠ 0), bround_intCast]
  have hnone : internal_slh_balance
      [⟨none, some ("u"), 10 ^ 11, "SLH", "INTERNAL", false, none, none⟩]
      ("u") = none := by
    simp only [internal_slh_balance, List.filter]
    norm_num
    rw [hval]
    simp only [quantize18Ctx, hb]
    rw [if_neg (by norm_num [Int.natAbs_pow])]
  have hsum : specIncomingSum
        [⟨none, some ("u"), 10 ^ 11, "SLH", "INTERNAL", false, none, none⟩]
        ("u") -
      specOutgoingSum
        [⟨none, some ("u"), 10 ^ 11, "SLH", "INTERNAL", false, none, none⟩]
        ("u") = 10 ^ 11 := by
    norm_num [specIncomingSum, specOutgoingSum, List.filter]
  refine ⟨hnone, hsum, ?_⟩
  rw [hnone]
  exact fun h => Option.noConfusion h

/-- C7 amended: `_get_internal_slh_balance(userId)` equals the sum of
transaction amounts with `to_telegram_id = userId` minus the sum with
`from_telegram_id = userId` — both restricted to `chain = "INTERNAL"` and
`currency = "SLH"` — whenever the stored amounts lie on the
18-fractional-digit grid of the `Numeric(40, 18)` column and the
difference is below 10¹⁰ in magnitude, so that the final `quantize` under
the default 28-digit context succeeds and is the identity.  For larger
differences the source raises `InvalidOperation` instead (see the
counterexample). -/
theorem C7_internal_balance_sum (txs : List Transaction) (uid : String)
    (hgrid : ∀ t ∈ txs, ∃ k : ℤ, t.amount = (k : ℚ) / 10 ^ 18)
    (hmag : |specIncomingSum txs uid - specOutgoingSum txs uid| < 10 ^ 10) :
    internal_slh_balance txs uid =
      some (specIncomingSum txs uid - specOutgoingSum txs uid) := by
  obtain ⟨Ki, hKi⟩ := sum_div_pow18
    ((txs.filter (fun t =>
      t.to_telegram_id == some uid && t.currency == "SLH" &&
        t.chain == "INTERNAL")).map Transaction.amount)
    (by
      intro x hx
      obtain ⟨t, ht, hta⟩ := List.mem_map.mp hx
      exact hta ▸ hgrid t (List.mem_filter.mp ht).1)
  obtain ⟨Ko, hKo⟩ := sum_div_pow18
    ((txs.filter (fun t =>
      t.from_telegram_id == some uid && t.currency == "SLH" &&
        t.chain == "INTERNAL")).map Transaction.amount)
    (by
      intro x hx
      obtain ⟨t, ht, hta⟩ := List.mem_map.mp hx
      exact hta ▸ hgrid t (List.mem_filter.mp ht).1)
  simp only [internal_slh_balance, specIncomingSum, specOutgoingSum,
    hKi, hKo] at hmag ⊢
  rw [div_sub_div_same, ← Int.cast_sub] at hmag ⊢
  exact quantize18Ctx_of_small (Ki - Ko) (natAbs_lt_of_abs_div_lt _ hmag)

/-- C7 witness (the spec's own scenario): one internal credit of 100 and
one internal debit of 30 leave an internal balance of exactly 70, well
inside the context bound. -/
theorem C7_witness :
    internal_slh_balance
      [⟨none, some ("u"), 100, "SLH", "INTERNAL", false, none, some ("claim")⟩,
        ⟨some ("u"), some ("v"), 30, "SLH", "INTERNAL", false, none, none⟩]
      ("u") = some 70 := by
  have hin : specIncomingSum
      [⟨none, some ("u"), 100, "SLH", "INTERNAL", false, none, some ("claim")⟩,
        ⟨some ("u"), some ("v"), 30, "SLH", "INTERNAL", false, none, none⟩]
      ("u") = 100 := by
    norm_num [specIncomingSum, List.filter,
      (by decide : (("v" == "u") : Bool) = false)]
  have hout : specOutgoingSum
      [⟨none, some ("u"), 100, "SLH", "INTERNAL", false, none, some ("claim")⟩,
        ⟨some ("u"), some ("v"), 30, "SLH", "INTERNAL", false, none, none⟩]
      ("u") = 30 := by
    norm_num [specOutgoingSum, List.filter,
      (by decide : (("v" == "u") : Bool) = false)]
  have h := C7_internal_balance_sum
    [⟨none, some ("u"), 100, "SLH", "INTERNAL", false, none, some ("claim")⟩,
      ⟨some ("u"), some ("v"), 30, "SLH", "INTERNAL", false, none, none⟩]
    ("u")
    (by
      intro t ht
      simp only [List.mem_cons, List.not_mem_nil, or_false] at ht
      cases ht with
      | inl h => exact ⟨100 * 10 ^ 18, by rw [h]; norm_num⟩
      | inr h => exact ⟨30 * 10 ^ 18, by rw [h]; norm_num⟩)
    (by rw [hin, hout]; norm_num)
  rw [h, hin, hout]
  norm_num

/-! ## Claim C8 -/

/-- C8: calling `upsert_wallet` twice with the same user id and two
addresses leaves exactly one record for that id; the lookup returns the
second call's record, whose `bnb_address` (and mirrored `slh_address`) are
the second call's values; and key-uniqueness of the table is preserved at
both steps. -/
theorem C8_upsert_last_write_wins (db : List Wallet) (now1 now2 : ℕ)
    (id : String) (un1 fn1 un2 fn2 : Option String) (a1 a2 : String)
    (ton1 ton2 : Option String) (h : (wkeys db).Nodup) :
    countId (upsert_wallet (upsert_wallet db now1 id un1 fn1 a1 ton1).1
        now2 id un2 fn2 a2 ton2).1 id = 1 ∧
    (wkeys (upsert_wallet (upsert_wallet db now1 id un1 fn1 a1 ton1).1
        now2 id un2 fn2 a2 ton2).1).Nodup ∧
    dbGet (upsert_wallet (upsert_wallet db now1 id un1 fn1 a1 ton1).1
        now2 id un2 fn2 a2 ton2).1 id =
      some (upsert_wallet (upsert_wallet db now1 id un1 fn1 a1 ton1).1
        now2 id un2 fn2 a2 ton2).2 ∧
    (upsert_wallet (upsert_wallet db now1 id un1 fn1 a1 ton1).1
        now2 id un2 fn2 a2 ton2).2.bnb_address = a2 ∧
    (upsert_wallet (upsert_wallet db now1 id un1 fn1 a1 ton1).1
        now2 id un2 fn2 a2 ton2).2.slh_address = some a2 := by
  have h1 : (wkeys (upsert_wallet db now1 id un1 fn1 a1 ton1).1).Nodup :=
    wkeys_upsert_nodup db now1 id un1 fn1 a1 ton1 h
  refine ⟨countId_upsert _ now2 id un2 fn2 a2 ton2 h1,
    wkeys_upsert_nodup _ now2 id un2 fn2 a2 ton2 h1,
    dbGet_upsert _ now2 id un2 fn2 a2 ton2,
    (upsert_snd_addresses _ now2 id un2 fn2 a2 ton2).1,
    (upsert_snd_addresses _ now2 id un2 fn2 a2 ton2).2⟩

/-- C8 witness: two upserts for user `"1"` on an initially empty store,
first with address `"0xaaa"`, then `"0xbbb"`, leave one record holding
`"0xbbb"`. -/
theorem C8_witness :
    countId (upsert_wallet (upsert_wallet [] 0 ("1") none none ("0xaaa") none).1
        1 ("1") none none ("0xbbb") none).1 ("1") = 1 ∧
    (upsert_wallet (upsert_wallet [] 0 ("1") none none ("0xaaa") none).1
        1 ("1") none none ("0xbbb") none).2.bnb_address = "0xbbb" := by
  have h := C8_upsert_last_write_wins [] 0 1 ("1") none none none none
    ("0xaaa") ("0xbbb") none none (by simp [wkeys])
  exact ⟨h.1, h.2.2.2.1⟩

/-! ## Claims C3 and C9: the webhook handlers -/

theorem handleSendSlh_new_amounts (oe : Bool) (oores : Except Unit String)
    (db : DBState) (sid : String) (args : List String) :
    ∀ t ∈ (handleSendSlh oe oores db sid args).1.transactions.drop
      db.transactions.length, 0 < t.amount := by
  intro t ht
  match args with
  | [] => simp [handleSendSlh, List.drop_length] at ht
  | [x] => simp [handleSendSlh, List.drop_length] at ht
  | amount_raw :: target_raw :: rest =>
    simp only [handleSendSlh] at ht
    cases hp : parseDecStr amount_raw.toList with
    | none =>
      simp only [hp] at ht
      simp [List.drop_length] at ht
    | some a =>
      simp only [hp] at ht
      by_cases hle : a.val ≤ 0
      · rw [if_pos hle] at ht
        simp [List.drop_length] at ht
      · rw [if_neg hle] at ht
        cases hg : dbGet db.wallets sid with
        | none =>
          simp only [hg] at ht
          simp [List.drop_length] at ht
        | some fw =>
          simp only [hg] at ht
          cases hf : findTarget db.wallets target_raw with
          | none =>
            simp only [hf] at ht
            simp [List.drop_length] at ht
          | some tw =>
            simp only [hf] at ht
            rw [List.drop_left] at ht
            simp only [List.mem_singleton] at ht
            subst ht
            have hpos : (0 : ℚ) < a.val := not_le.mp hle
            by_cases hat : (oe && !(tw.bnb_address == "")) = true
            · cases oores with
              | ok h => simp [hat, hpos]
              | error e => simp [hat, hpos]
            · simp [hat, hpos]

theorem handleAirdrop_new_amounts (adm : Bool) (db : DBState) (sid : String)
    (args : List String) :
    ∀ t ∈ (handleAirdrop adm db sid args).1.transactions.drop
      db.transactions.length, 0 < t.amount := by
  intro t ht
  cases adm with
  | false => simp [handleAirdrop, List.drop_length] at ht
  | true =>
    simp only [handleAirdrop, Bool.not_true, Bool.false_eq_true, if_false] at ht
    match args with
    | [] => simp [List.drop_length] at ht
    | [x] => simp [List.drop_length] at ht
    | amount_raw :: t1 :: ts =>
      cases hp : parseDecStr amount_raw.toList with
      | none =>
        simp only [hp] at ht
        simp [List.drop_length] at ht
      | some a =>
        simp only [hp] at ht
        by_cases hle : a.val ≤ 0
        · rw [if_pos hle] at ht
          simp [List.drop_length] at ht
        · rw [if_neg hle] at ht
          simp only at ht
          rw [List.drop_left] at ht
          have := airdropLoop_amounts db.wallets sid a.val (t1 :: ts) t ht
          rw [this]
          exact not_le.mp hle

/-- C3 counterexample: the claim says every transactions row any operation
creates has a positive amount.  `/claim` writes the configured reward with
no positivity check: with `CLAIM_REWARD_SLH = "-5"` (which parses fine and
so does not hit the `Decimal("10")` fallback) it appends a row of amount
−5. -/
theorem C3_counterexample :
    ¬ (∀ t ∈ (handleClaim ("-5") ⟨[], []⟩ ("7")).1.transactions, 0 < t.amount) := by
  intro h
  have hmem := h ⟨none, some ("7"), claimReward ("-5"), "SLH", "INTERNAL",
    false, none, some ("claim")⟩ (by simp [handleClaim])
  have hparse : parseDecStr ['-', '5'] = some ⟨-5, 0⟩ := by decide
  have hcr : claimReward ("-5") = Dec.val ⟨-5, 0⟩ := by
    simp [claimReward, hparse]
  rw [hcr] at hmem
  norm_num [Dec.val] at hmem

/-- C3 amended: rows written by `/send_slh` and `/airdrop` always carry a
positive amount — both commands reject a parsed amount `≤ 0` with a
validation reply and write no row — and `/claim` rows are positive exactly
when the configured reward is, so the amount-positive ledger invariant
holds provided `CLAIM_REWARD_SLH` is positive (its default `"10"` is); it
is not enforced for `/claim` by the code itself. -/
theorem C3_amount_positive (oe : Bool) (oores : Except Unit String)
    (db : DBState) (sid : String) (args : List String) (adm : Bool)
    (sid2 : String) (args2 : List String) (rs uid : String)
    (amount_raw target : String) (rest2 : List String) (a : Dec) :
    (∀ t ∈ (handleSendSlh oe oores db sid args).1.transactions.drop
        db.transactions.length, 0 < t.amount) ∧
    (∀ t ∈ (handleAirdrop adm db sid2 args2).1.transactions.drop
        db.transactions.length, 0 < t.amount) ∧
    (0 < claimReward rs →
      ∀ t ∈ (handleClaim rs db uid).1.transactions.drop
        db.transactions.length, 0 < t.amount) ∧
    (parseDecStr amount_raw.toList = some a → a.val ≤ 0 →
      handleSendSlh oe oores db sid (amount_raw :: target :: rest2) =
        (db, [Reply.invalidAmount])) := by
  refine ⟨handleSendSlh_new_amounts oe oores db sid args,
    handleAirdrop_new_amounts adm db sid2 args2, ?_, ?_⟩
  · intro hpos t ht
    simp only [handleClaim] at ht
    rw [List.drop_left] at ht
    simp only [List.mem_singleton] at ht
    subst ht
    exact hpos
  · intro hp hle
    simp only [handleSendSlh, hp]
    rw [if_pos hle]

/-- C3 witness: with the default reward `"10"` the `/claim` row is
positive, and `/send_slh 0 …` is rejected without writing a row. -/
theorem C3_witness :
    (∀ t ∈ (handleClaim ("10") (⟨[], []⟩ : DBState) ("7")).1.transactions.drop
      (List.length ([] : List Transaction)), 0 < t.amount) ∧
    handleSendSlh false (Except.error ()) ⟨[], []⟩ ("1") (["0", "2"]) =
      (⟨[], []⟩, [Reply.invalidAmount]) := by
  have h := C3_amount_positive false (Except.error ()) ⟨[], []⟩ ("1") [] false
    ("1") [] ("10") ("7") ("0") ("2") [] ⟨0, 0⟩
  have hp10 : parseDecStr ['1', '0'] = some ⟨10, 0⟩ := by decide
  have hcr : claimReward ("10") = Dec.val ⟨10, 0⟩ := by
    simp [claimReward, hp10]
  refine ⟨h.2.2.1 ?_, h.2.2.2 (by decide) (by norm_num [Dec.val])⟩
  rw [hcr]
  norm_num [Dec.val]

/-- C9: once `/send_slh` has recorded its internal ledger row, a failing
on-chain broadcast (flag enabled, recipient has a chain address) is
non-fatal: the state gains exactly the internal row — still tagged
`INTERNAL`, not on-chain, without a transaction hash — and the sender
still receives the transfer confirmation (with no hash line), the
recipient the notification. -/
theorem C9_onchain_failure_nonfatal (db : DBState) (sid : String)
    (amt tgt : String) (rest : List String) (a : Dec) (sw tw : Wallet)
    (hp : parseDecStr amt.toList = some a) (hpos : 0 < a.val)
    (hsw : dbGet db.wallets sid = some sw)
    (htw : findTarget db.wallets tgt = some tw)
    (hbnb : ¬ tw.bnb_address = "") :
    handleSendSlh true (.error ()) db sid (amt :: tgt :: rest) =
      (⟨db.wallets, db.transactions ++
          [⟨some sid, some tw.telegram_id, a.val, "SLH", "INTERNAL", false,
            none,
            if rest.isEmpty then none
            else some (String.intercalate (" ") rest)⟩]⟩,
        [Reply.confirmSender a.val (targetLabel tgt) none
            (if rest.isEmpty then none
              else some (String.intercalate (" ") rest)),
          Reply.notifyRecipient tw.telegram_id a.val
            (if rest.isEmpty then none
              else some (String.intercalate (" ") rest)) none]) := by
  have hle : ¬ a.val ≤ 0 := not_le.mpr hpos
  have hb : (tw.bnb_address == "") = false := by simp [hbnb]
  simp only [handleSendSlh, hp, hsw, htw]
  rw [if_neg hle]
  simp [hb, targetLabel]

/-- C9 witness: user `"1"` sends 5 SLH to user `"2"` (who has a chain
address) with the on-chain flag enabled and a failing broadcast. -/
theorem C9_witness :
    handleSendSlh true (.error ())
      ⟨[⟨"1", none, none, none, "0xa", none, none, 0, 0⟩,
        ⟨"2", some ("bob"), none, none, "0xb", none, none, 0, 0⟩], []⟩
      ("1") (["5", "2"]) =
      (⟨[⟨"1", none, none, none, "0xa", none, none, 0, 0⟩,
          ⟨"2", some ("bob"), none, none, "0xb", none, none, 0, 0⟩],
        [⟨some ("1"), some ("2"), Dec.val ⟨5, 0⟩, "SLH", "INTERNAL", false,
          none, none⟩]⟩,
        [Reply.confirmSender (Dec.val ⟨5, 0⟩) (targetLabel ("2")) none none,
          Reply.notifyRecipient ("2") (Dec.val ⟨5, 0⟩) none none]) := by
  have h := C9_onchain_failure_nonfatal
    ⟨[⟨"1", none, none, none, "0xa", none, none, 0, 0⟩,
      ⟨"2", some ("bob"), none, none, "0xb", none, none, 0, 0⟩], []⟩
    ("1") ("5") ("2") [] ⟨5, 0⟩
    ⟨"1", none, none, none, "0xa", none, none, 0, 0⟩
    ⟨"2", some ("bob"), none, none, "0xb", none, none, 0, 0⟩
    (by decide) (by norm_num [Dec.val]) (by decide) (by decide) (by decide)
  simpa using h

end SLH
